import Mathlib

/-!
Shallow embedding of the MEDS cutout-addressing and composite-weight engine
(`meds.py`).  Pixel values and coordinates are modelled as rationals (the
source uses 64-bit floats; all claims here concern the exact arithmetic
structure of the algorithm, not float rounding).  Fallible operations
(numpy `IndexError` on out-of-range indexing) are modelled with `Option` /
`Except`.  numpy's negative-index wrap-around is modelled explicitly.
-/

attribute [local semireducible] Rat.add Rat.mul Rat.sub Rat.inv

namespace Meds

/-- A 2-D pixel array of values in `α`: `rows × cols`, with `data r c` the
pixel at row `r`, column `c` (only indices with `r < rows`, `c < cols` are
meaningful). -/
structure Mat (α : Type) where
  rows : ℕ
  cols : ℕ
  data : ℕ → ℕ → α

/-- numpy index resolution for one axis of length `n`: an integer index `i`
is valid when `-n ≤ i < n`; negative indices wrap to `i + n`; anything else
raises `IndexError` (modelled as `none`). -/
def npIndex (n : ℕ) (i : ℤ) : Option ℕ :=
  if 0 ≤ i ∧ i < (n : ℤ) then some i.toNat
  else if -(n : ℤ) ≤ i ∧ i < 0 then some (i + n).toNat
  else none

/-- numpy 2-D element lookup `m[i, j]` with wrap-around semantics; `none`
models an `IndexError`. -/
def npGet2 {α : Type} (m : Mat α) (i j : ℤ) : Option α :=
  (npIndex m.rows i).bind fun r => (npIndex m.cols j).map fun c => m.data r c

/-- numpy `clip(x, lo, hi)` on integers: `min (max x lo) hi` (when
`lo > hi` the result is `hi`, as numpy does). -/
def npClip (x lo hi : ℤ) : ℤ := min (max x lo) hi

/-- numpy `astype('i8')` applied to a float value, and likewise the integer
conversion numpy performs when a float is used as an array index: a C cast,
i.e. truncation toward zero. On a rational `q` this is `q.num / q.den`
with division truncating toward zero. -/
def astypeI8 (q : ℚ) : ℤ := Int.tdiv q.num q.den

/-- The per-object catalog (`object_data` extension), §3 of the design:
all per-cutout fields are functions of (object index, cutout index). -/
structure Catalog where
  size : ℕ
  ncutout : ℕ → ℕ
  box_size : ℕ → ℕ
  start_row : ℕ → ℕ → ℕ
  cutout_row : ℕ → ℕ → ℚ
  cutout_col : ℕ → ℕ → ℚ
  dudrow : ℕ → ℕ → ℚ
  dudcol : ℕ → ℕ → ℚ
  dvdrow : ℕ → ℕ → ℚ
  dvdcol : ℕ → ℕ → ℚ

/-- The validation failures of `_check_indices` (the source raises
`ValueError` at each site; the design's error taxonomy names the
out-of-bounds sites `IndexError` and the no-cutouts site
`EmptyObjectError`, and we follow that naming). -/
inductive MedsErr where
  | indexError : MedsErr
  | emptyObjectError : MedsErr
deriving DecidableEq

/-- Embeds `_check_indices(iobj, icutout)` (meds.py lines 553-566): rejects
`iobj >= size`; then reads `ncutout[iobj]` (a numpy lookup, which wraps
negative indices and raises IndexError below `-size`); rejects
`ncutout == 0`; when a cutout index is supplied, rejects
`icutout >= ncutout`.  Note: negative `iobj` / `icutout` are NOT rejected
by the comparisons. -/
def checkIndices (cat : Catalog) (iobj : ℤ) (icutout : Option ℤ) :
    Except MedsErr Unit :=
  if (cat.size : ℤ) ≤ iobj then .error .indexError
  else
    match npIndex cat.size iobj with
    | none => .error .indexError
    | some r =>
      if cat.ncutout r = 0 then .error .emptyObjectError
      else
        match icutout with
        | none => .ok ()
        | some k => if (cat.ncutout r : ℤ) ≤ k then .error .indexError else .ok ()

/-- The 2×2 Jacobian matrix `[[dudrow, dudcol], [dvdrow, dvdcol]]`. -/
structure Jac where
  j00 : ℚ
  j01 : ℚ
  j10 : ℚ
  j11 : ℚ

/-- Embeds `get_jacob_as_matrix(iobj, icutout)` (meds.py lines 329-354). -/
def get_jacob_as_matrix (cat : Catalog) (iobj icutout : ℕ) : Jac :=
  ⟨cat.dudrow iobj icutout, cat.dudcol iobj icutout,
   cat.dvdrow iobj icutout, cat.dvdcol iobj icutout⟩

/-- Determinant of a 2×2 Jacobian; `matrix.getI()` raises `LinAlgError`
exactly when this is zero. -/
def jacDet (J : Jac) : ℚ := J.j00 * J.j11 - J.j01 * J.j10

/-- 2×2 matrix inverse (the value `matrix.getI()` computes when the matrix
is non-singular). -/
def jacInv (J : Jac) : Jac :=
  ⟨J.j11 / jacDet J, -J.j01 / jacDet J, -J.j10 / jacDet J, J.j00 / jacDet J⟩

/-- The epoch-frame coordinate map of `_make_composite_weight`
(meds.py lines 493-513): pixel `(r, c)` of the single-epoch cutout is sent
to exact (pre-integer-conversion) coadd-frame coordinates
`(crow, ccol)`: offsets from the anchor are pushed through the epoch
Jacobian to `(u, v)` and pulled back through the inverse coadd Jacobian.
Both the anchor and the "coadd" anchor are read from the CURRENT cutout's
`cutout_row`/`cutout_col` entry, exactly as the source does. -/
def epochMap (cat : Catalog) (iobj icutout r c : ℕ) : ℚ × ℚ :=
  let rowcen := cat.cutout_row iobj icutout
  let colcen := cat.cutout_col iobj icutout
  let se := get_jacob_as_matrix cat iobj icutout
  let cjinv := jacInv (get_jacob_as_matrix cat iobj 0)
  let dr : ℚ := (r : ℚ) - rowcen
  let dc : ℚ := (c : ℚ) - colcen
  let u := dr * se.j00 + dc * se.j01
  let v := dr * se.j10 + dc * se.j11
  (rowcen + u * cjinv.j00 + v * cjinv.j01,
   colcen + u * cjinv.j10 + v * cjinv.j11)

/-- One pixel of the epoch-frame branch, given the already-integer coadd
coordinates `(ir, ic)` (meds.py lines 518-528): the "bad" test transcribes
the source's operator grouping literally — Python `&` binds tighter than
`|`, so `(crow < 0) | (crow >= h) & (ccol < 0) | (ccol >= w)` is
`(crow < 0) ∨ ((crow ≥ h) ∧ (ccol < 0)) ∨ (ccol ≥ w)` — then the indices
are clipped into bounds and the segmentation is compared with `segid`.
`none` models the `IndexError` the clipped lookup can still raise when a
segmentation axis has length 0. -/
def epochPixelAt (seg : Mat ℚ) (segid wval : ℚ) (ir ic : ℤ) : Option ℚ :=
  match npGet2 seg (npClip ir 0 ((seg.rows : ℤ) - 1))
      (npClip ic 0 ((seg.cols : ℤ) - 1)) with
  | none => none
  | some sv =>
    some (if (decide (ir < 0) || (decide ((seg.rows : ℤ) ≤ ir) &&
        decide (ic < 0)) || decide ((seg.cols : ℤ) ≤ ic)) ||
        decide (sv ≠ segid) then 0 else wval)

/-- One pixel of the epoch-frame branch: the exact coordinates from
`epochMap` are converted with `astype('i8')` (meds.py lines 515-516) and
fed to `epochPixelAt`. -/
def epochPixel (cat : Catalog) (iobj icutout : ℕ) (seg : Mat ℚ)
    (segid wval : ℚ) (r c : ℕ) : Option ℚ :=
  let q := epochMap cat iobj icutout r c
  epochPixelAt seg segid wval (astypeI8 q.1) (astypeI8 q.2)

/-- Whether every pixel of the epoch-frame branch evaluates without an
`IndexError` (numpy's fancy lookup `coadd_seg[crow, ccol]` raises if any
element is out of range). -/
def epochAllOk (cat : Catalog) (iobj icutout : ℕ) (wt seg : Mat ℚ)
    (segid : ℚ) : Bool :=
  (List.range wt.rows).all fun r => (List.range wt.cols).all fun c =>
    (epochPixel cat iobj icutout seg segid (wt.data r c) r c).isSome

/-- Whether the coadd-branch masked assignment `cwt[w] = 0` with
`w = where(coadd_seg != segid)` stays inside `cwt`'s bounds (if some
position of the segmentation grid with a differing label lies outside the
weight array, numpy raises `IndexError`). -/
def coaddMaskFits (wt seg : Mat ℚ) (segid : ℚ) : Bool :=
  (List.range seg.rows).all fun r => (List.range seg.cols).all fun c =>
    decide (seg.data r c = segid) || (decide (r < wt.rows) && decide (c < wt.cols))

/-- The branches of `_make_composite_weight` after `segid` has been
obtained (meds.py lines 487-530), starting from `cwt = wt.copy()`.
`icutout == 0`: zero wherever `coadd_seg != segid`.  Otherwise: if the
coadd Jacobian is singular, return an all-zero array of `wt`'s shape
(lines 500-505); else apply the per-pixel epoch-frame masking.  `none`
models a propagated numpy `IndexError`. -/
def makeCompositeWeightSeg (cat : Catalog) (iobj icutout : ℕ) (wt seg : Mat ℚ)
    (segid : ℚ) : Option (Mat ℚ) :=
  if icutout = 0 then
    if coaddMaskFits wt seg segid then
      some ⟨wt.rows, wt.cols, fun r c =>
        if r < seg.rows ∧ c < seg.cols ∧ seg.data r c ≠ segid then 0
        else wt.data r c⟩
    else none
  else
    if jacDet (get_jacob_as_matrix cat iobj 0) = 0 then
      some ⟨wt.rows, wt.cols, fun _ _ => 0⟩
    else
      if epochAllOk cat iobj icutout wt seg segid then
        some ⟨wt.rows, wt.cols, fun r c =>
          (epochPixel cat iobj icutout seg segid (wt.data r c) r c).getD 0⟩
      else none

/-- Embeds `_make_composite_weight(iobj, icutout, wt, coadd_seg)`
(meds.py lines 470-530).  The anchor is read from the current cutout's
own `cutout_row`/`cutout_col` entry; `segid` is the segmentation value at
the float-indexed (hence truncated-toward-zero) anchor — `none` models
the `IndexError` when that is out of range — and the rest is
`makeCompositeWeightSeg`. -/
def makeCompositeWeight (cat : Catalog) (iobj icutout : ℕ) (wt seg : Mat ℚ) :
    Option (Mat ℚ) :=
  match npGet2 seg (astypeI8 (cat.cutout_row iobj icutout))
      (astypeI8 (cat.cutout_col iobj icutout)) with
  | none => none
  | some segid => makeCompositeWeightSeg cat iobj icutout wt seg segid

/-- One pixel of the epoch-frame branch under the spec's stated rounding
policy.  Modelled from the spec: identical to `epochPixelAt ∘ astypeI8`
except that the exact coordinates are rounded to the NEAREST integer
(`round`), as §4.4 step (e) words it; kept only to compare the source's
truncation against the spec's words. -/
def epochPixelRound (cat : Catalog) (iobj icutout : ℕ) (seg : Mat ℚ)
    (segid wval : ℚ) (r c : ℕ) : Option ℚ :=
  let q := epochMap cat iobj icutout r c
  epochPixelAt seg segid wval (round q.1) (round q.2)

/-- Variant of `epochAllOk` for the rounding comparison. -/
def epochAllOkRound (cat : Catalog) (iobj icutout : ℕ) (wt seg : Mat ℚ)
    (segid : ℚ) : Bool :=
  (List.range wt.rows).all fun r => (List.range wt.cols).all fun c =>
    (epochPixelRound cat iobj icutout seg segid (wt.data r c) r c).isSome

/-- The composite-weight algorithm under the spec's stated rounding
policy.  Modelled from the spec: identical to `makeCompositeWeight`
except that every float→integer pixel-index conversion (the `seg_id`
anchor lookup of §4.4 step 2 and the coadd coordinates of step (e)) uses
round-to-nearest instead of the source's truncation toward zero.  Used
only as the comparison point for the refinement claims about rounding. -/
def makeCompositeWeightRound (cat : Catalog) (iobj icutout : ℕ)
    (wt seg : Mat ℚ) : Option (Mat ℚ) :=
  match npGet2 seg (round (cat.cutout_row iobj icutout))
      (round (cat.cutout_col iobj icutout)) with
  | none => none
  | some segid =>
    if icutout = 0 then
      if coaddMaskFits wt seg segid then
        some ⟨wt.rows, wt.cols, fun r c =>
          if r < seg.rows ∧ c < seg.cols ∧ seg.data r c ≠ segid then 0
          else wt.data r c⟩
      else none
    else
      if jacDet (get_jacob_as_matrix cat iobj 0) = 0 then
        some ⟨wt.rows, wt.cols, fun _ _ => 0⟩
      else
        if epochAllOkRound cat iobj icutout wt seg segid then
          some ⟨wt.rows, wt.cols, fun r c =>
            (epochPixelRound cat iobj icutout seg segid (wt.data r c) r c).getD 0⟩
        else none

/-- Embeds `get_cutout(iobj, icutout, type)` (meds.py lines 159-187): validate,
then reshape the flat rows `[start_row, start_row + box_size²)` of the
extension selected by `type` into a `box_size × box_size` array; element
`(r, c)` is flat element `start_row + r·box_size + c` (row-major).  The
extension's flat storage is passed in as `flat`. -/
def get_cutout {α : Type} (cat : Catalog) (flat : ℕ → α) (iobj icutout : ℕ) :
    Except MedsErr (Mat α) :=
  match checkIndices cat iobj (some icutout) with
  | .error e => .error e
  | .ok _ =>
    let b := cat.box_size iobj
    .ok ⟨b, b, fun r c => flat (cat.start_row iobj icutout + r * b + c)⟩

/-- Embeds `get_mosaic(iobj, type)` (meds.py lines 189-219): validate the object
only, then reshape the flat rows
`[start_row[iobj,0], start_row[iobj,0] + box_size²·ncutout)` into an
`(ncutout·box_size) × box_size` array. -/
def get_mosaic {α : Type} (cat : Catalog) (flat : ℕ → α) (iobj : ℕ) :
    Except MedsErr (Mat α) :=
  match checkIndices cat iobj none with
  | .error e => .error e
  | .ok _ =>
    let b := cat.box_size iobj
    .ok ⟨cat.ncutout iobj * b, b, fun r c => flat (cat.start_row iobj 0 + r * b + c)⟩

/-- The pixel values of `_split_mosaic(mosaic, box_size, ncutout)`
(meds.py lines 543-550): cutout `i` is the row band
`[i·box_size, (i+1)·box_size)` of the mosaic.  (The view/aliasing aspect
of `_split_mosaic` is modelled separately by `splitMosaicViews`.) -/
def splitMosaicVals {α : Type} (m : Mat α) (box_size ncutout : ℕ) :
    List (Mat α) :=
  (List.range ncutout).map fun i =>
    ⟨box_size, box_size, fun r c => m.data (i * box_size + r) c⟩

/-- A heap of 2-D pixel buffers, modelling numpy array storage: buffer id
→ row → column → value. -/
def Heap : Type := ℕ → ℕ → ℕ → ℚ

/-- A numpy array view: a reference into a shared buffer (a row slice
`mosaic[r1:r2, :]` is the same buffer with a row offset), not a copy. -/
structure ViewH where
  buf : ℕ
  rowOff : ℕ
  rows : ℕ
  cols : ℕ

/-- Default view (used only to totalize list indexing). -/
def dfltView : ViewH := ⟨0, 0, 0, 0⟩

/-- Reading pixel `(r, c)` through a view. -/
def readV (σ : Heap) (v : ViewH) (r c : ℕ) : ℚ := σ v.buf (v.rowOff + r) c

/-- Writing pixel `(r, c)` through a view: mutates the shared buffer. -/
def writeV (σ : Heap) (v : ViewH) (r c : ℕ) (x : ℚ) : Heap :=
  fun b i j => if b = v.buf ∧ i = v.rowOff + r ∧ j = c then x else σ b i j

/-- Embeds `_split_mosaic` at the view level (meds.py lines 543-550):
`mosaic[i*box_size:(i+1)*box_size, :]` is a view into the SAME buffer as
the mosaic, with row offset shifted by `i·box_size`. -/
def splitMosaicViews (m : ViewH) (box_size ncutout : ℕ) : List ViewH :=
  (List.range ncutout).map fun i => ⟨m.buf, m.rowOff + i * box_size, box_size, box_size⟩

/-- The matrix of values a view currently holds. -/
def matOfView (σ : Heap) (v : ViewH) : Mat ℚ :=
  ⟨v.rows, v.cols, fun r c => readV σ v r c⟩

/-- Embeds `_make_composite_weight` at the heap level: the source's
`cwt = wt.copy()` allocates a fresh buffer (distinct from every input
buffer), and every subsequent masked assignment (`cwt[w] = 0`,
`cwt[:,:] = 0`) writes into that fresh buffer only; the content written is
exactly what the pure `makeCompositeWeight` computes from the values read
through the input views.  `none` models the propagated `IndexError`. -/
def makeCompositeWeightH (σ : Heap) (cat : Catalog) (iobj icutout : ℕ)
    (wtV segV : ViewH) : Option (Heap × ViewH) :=
  match makeCompositeWeight cat iobj icutout (matOfView σ wtV) (matOfView σ segV) with
  | none => none
  | some M =>
    let fresh := max wtV.buf segV.buf + 1
    some (fun b i j => if b = fresh then M.data i j else σ b i j,
          ⟨fresh, 0, M.rows, M.cols⟩)

/-! Concrete inputs used by counterexamples, failing-input evaluations and
witnesses. -/

/-- Default matrix (used only to totalize list indexing). -/
def dfltMat : Mat ℚ := ⟨0, 0, fun _ _ => 0⟩

/-- Catalog for the bounds-check evaluation: one object, two cutouts,
box 2; anchors at (0,0); epoch Jacobian `[[2,0],[0,1]]`, coadd Jacobian
the identity. -/
def exCatBug : Catalog :=
  { size := 1, ncutout := fun _ => 2, box_size := fun _ => 2,
    start_row := fun _ _ => 0,
    cutout_row := fun _ _ => 0, cutout_col := fun _ _ => 0,
    dudrow := fun _ ic => if ic = 0 then 1 else 2,
    dudcol := fun _ _ => 0, dvdrow := fun _ _ => 0, dvdcol := fun _ _ => 1 }

/-- 2×2 weight cutout, all pixels nonzero, pixel (1,0) = 7. -/
def exWtBug : Mat ℚ := ⟨2, 2, fun r c => if r = 1 ∧ c = 0 then 7 else 1⟩

/-- 2×2 reference segmentation cutout, constant label 5. -/
def exSegBug : Mat ℚ := ⟨2, 2, fun _ _ => 5⟩

/-- Catalog for the rounding-policy counterexample: epoch Jacobian
`[[1/2,0],[0,1]]`, coadd Jacobian the identity, anchors at (0,0). -/
def exCatTrunc : Catalog :=
  { size := 1, ncutout := fun _ => 2, box_size := fun _ => 2,
    start_row := fun _ _ => 0,
    cutout_row := fun _ _ => 0, cutout_col := fun _ _ => 0,
    dudrow := fun _ ic => if ic = 0 then 1 else 1/2,
    dudcol := fun _ _ => 0, dvdrow := fun _ _ => 0, dvdcol := fun _ _ => 1 }

/-- 2×2 weight cutout of ones. -/
def exWtTrunc : Mat ℚ := ⟨2, 2, fun _ _ => 1⟩

/-- 2×2 segmentation cutout: label 5 on row 0, label 9 on row 1. -/
def exSegTrunc : Mat ℚ := ⟨2, 2, fun r _ => if r = 0 then 5 else 9⟩

/-- Catalog with an all-zero (hence singular) coadd Jacobian. -/
def exCatSingular : Catalog :=
  { size := 1, ncutout := fun _ => 2, box_size := fun _ => 1,
    start_row := fun _ _ => 0,
    cutout_row := fun _ _ => 0, cutout_col := fun _ _ => 0,
    dudrow := fun _ _ => 0, dudcol := fun _ _ => 0,
    dvdrow := fun _ _ => 0, dvdcol := fun _ _ => 0 }

/-- 1×1 weight cutout with value 3. -/
def exWtOne : Mat ℚ := ⟨1, 1, fun _ _ => 3⟩

/-- 1×1 segmentation cutout with label 5. -/
def exSegOne : Mat ℚ := ⟨1, 1, fun _ _ => 5⟩

/-- Catalog with one object that has one cutout (for validation tests). -/
def exCatIdx : Catalog :=
  { size := 1, ncutout := fun _ => 1, box_size := fun _ => 2,
    start_row := fun _ _ => 0,
    cutout_row := fun _ _ => 0, cutout_col := fun _ _ => 0,
    dudrow := fun _ _ => 1, dudcol := fun _ _ => 0,
    dvdrow := fun _ _ => 0, dvdcol := fun _ _ => 1 }

/-- Catalog with one object that has zero cutouts. -/
def exCatEmpty : Catalog :=
  { size := 1, ncutout := fun _ => 0, box_size := fun _ => 2,
    start_row := fun _ _ => 0,
    cutout_row := fun _ _ => 0, cutout_col := fun _ _ => 0,
    dudrow := fun _ _ => 1, dudcol := fun _ _ => 0,
    dvdrow := fun _ _ => 0, dvdcol := fun _ _ => 1 }

/-- 2×2 segmentation cutout: label 5 except label 9 at (1,1). -/
def exSegCoadd : Mat ℚ := ⟨2, 2, fun r c => if r = 1 ∧ c = 1 then 9 else 5⟩

/-- 2×2 weight cutout, pixel (r,c) = r·2 + c + 1 (all nonzero). -/
def exWtCoadd : Mat ℚ := ⟨2, 2, fun r c => (r : ℚ) * 2 + (c : ℚ) + 1⟩

/-- Catalog for the anchor-truncation counterexample: the (coadd) anchor
sits at `(3/2, 0)`. -/
def exCatAnchor : Catalog :=
  { size := 1, ncutout := fun _ => 1, box_size := fun _ => 3,
    start_row := fun _ _ => 0,
    cutout_row := fun _ _ => 3/2, cutout_col := fun _ _ => 0,
    dudrow := fun _ _ => 1, dudcol := fun _ _ => 0,
    dvdrow := fun _ _ => 0, dvdcol := fun _ _ => 1 }

/-- 3×1 weight cutout of ones. -/
def exWtAnchor : Mat ℚ := ⟨3, 1, fun _ _ => 1⟩

/-- 3×1 segmentation cutout: label 5 on rows 0-1, label 9 on row 2. -/
def exSegAnchor : Mat ℚ := ⟨3, 1, fun r _ => if r = 2 then 9 else 5⟩

/-- Catalog for the addressing claim: one object, two contiguous box-2
cutouts (`start_row k = 4k`). -/
def exCatAddr : Catalog :=
  { size := 1, ncutout := fun _ => 2, box_size := fun _ => 2,
    start_row := fun _ k => k * 4,
    cutout_row := fun _ _ => 0, cutout_col := fun _ _ => 0,
    dudrow := fun _ _ => 1, dudcol := fun _ _ => 0,
    dvdrow := fun _ _ => 0, dvdcol := fun _ _ => 1 }

/-- A flat pixel extension whose element `k` has value `k`. -/
def exFlat : ℕ → ℚ := fun k => (k : ℚ)

/-- A heap whose every pixel is 3. -/
def exHeap : Heap := fun _ _ _ => 3

/-- A view of buffer 1 (rows 0-5, 4 columns wide, row offset 0). -/
def exMosaicView : ViewH := ⟨1, 0, 6, 3⟩

/-- Weight view for the mutation witness: buffer 0, 1×1. -/
def exWtView : ViewH := ⟨0, 0, 1, 1⟩

/-- Segmentation view for the mutation witness: buffer 1, 1×1. -/
def exSegView : ViewH := ⟨1, 0, 1, 1⟩

/-! Helper lemmas (shared). -/

/-- Indexing a mapped range with `getD`. -/
theorem getD_map_range {α : Type} (f : ℕ → α) (n i : ℕ) (d : α) (hi : i < n) :
    ((List.range n).map f).getD i d = f i := by
  rw [List.getD_eq_getElem?_getD, List.getElem?_map, List.getElem?_range hi]
  rfl

/-- When the segmentation cutout has the same shape as the weight cutout,
the coadd masked assignment always stays in bounds. -/
theorem coaddMaskFits_of_shape (wt seg : Mat ℚ) (segid : ℚ)
    (hr : seg.rows = wt.rows) (hc : seg.cols = wt.cols) :
    coaddMaskFits wt seg segid = true := by
  unfold coaddMaskFits
  simp only [List.all_eq_true, List.mem_range]
  intro r hrm c hcm
  simp only [Bool.or_eq_true, Bool.and_eq_true, decide_eq_true_eq]
  exact Or.inr ⟨by omega, by omega⟩

/-- Reduction of `makeCompositeWeight` once the anchor lookup result is
known. -/
theorem makeCompositeWeight_eq_seg (cat : Catalog) (iobj icutout : ℕ)
    (wt seg : Mat ℚ) (segid : ℚ)
    (hseg : npGet2 seg (astypeI8 (cat.cutout_row iobj icutout))
      (astypeI8 (cat.cutout_col iobj icutout)) = some segid) :
    makeCompositeWeight cat iobj icutout wt seg =
      makeCompositeWeightSeg cat iobj icutout wt seg segid := by
  unfold makeCompositeWeight
  rw [hseg]

/-- Every defined pixel of the epoch-frame branch is the unchanged weight
value or exactly zero. -/
theorem epochPixelAt_getD_cases (seg : Mat ℚ) (segid wval : ℚ) (ir ic : ℤ) :
    (epochPixelAt seg segid wval ir ic).getD 0 = wval ∨
      (epochPixelAt seg segid wval ir ic).getD 0 = 0 := by
  unfold epochPixelAt
  cases npGet2 seg (npClip ir 0 ((seg.rows : ℤ) - 1))
      (npClip ic 0 ((seg.cols : ℤ) - 1)) with
  | none => exact Or.inr rfl
  | some sv =>
    by_cases hb : (decide (ir < 0) || (decide ((seg.rows : ℤ) ≤ ir) &&
        decide (ic < 0)) || decide ((seg.cols : ℤ) ≤ ic)) || decide (sv ≠ segid)
    · exact Or.inr (by simp only [Option.getD_some, if_pos hb])
    · exact Or.inl (by simp only [Option.getD_some, if_neg hb])

/-- Validation succeeds on an in-bounds object index for an object
with cutouts, with no cutout index supplied. -/
theorem checkIndices_ok_obj (cat : Catalog) (iobj : ℕ)
    (hio : iobj < cat.size) (hnc : cat.ncutout iobj ≠ 0) :
    checkIndices cat (iobj : ℤ) none = .ok () := by
  unfold checkIndices npIndex
  rw [if_neg (by exact_mod_cast Nat.not_le.mpr hio)]
  rw [if_pos (by constructor <;> omega)]
  simp only [Int.toNat_natCast]
  rw [if_neg hnc]

/-- Validation succeeds on in-bounds object and cutout indices. -/
theorem checkIndices_ok_cut (cat : Catalog) (iobj ic : ℕ)
    (hio : iobj < cat.size) (hic : ic < cat.ncutout iobj) :
    checkIndices cat (iobj : ℤ) (some (ic : ℤ)) = .ok () := by
  unfold checkIndices npIndex
  rw [if_neg (by exact_mod_cast Nat.not_le.mpr hio)]
  rw [if_pos (by constructor <;> omega)]
  simp only [Int.toNat_natCast]
  rw [if_neg (by omega)]
  rw [if_neg (by exact_mod_cast Nat.not_le.mpr hic)]

/-! Claim theorems. -/

/-- C3: for every object and every cutout_index > 0, if the reference
(cutout 0) Jacobian matrix is singular, the composite-weight operation
returns an all-zero weight cutout of the same shape as the input weight
cutout, and no exception propagates past the call (given that the
`segid` anchor lookup — which the source performs before the inversion —
succeeds). -/
theorem singular_coadd_jacobian_gives_zero_weight (cat : Catalog)
    (iobj icutout : ℕ) (wt seg : Mat ℚ) (segid : ℚ)
    (hic : 0 < icutout)
    (hseg : npGet2 seg (astypeI8 (cat.cutout_row iobj icutout))
      (astypeI8 (cat.cutout_col iobj icutout)) = some segid)
    (hdet : jacDet (get_jacob_as_matrix cat iobj 0) = 0) :
    makeCompositeWeight cat iobj icutout wt seg =
      some ⟨wt.rows, wt.cols, fun _ _ => 0⟩ := by
  rw [makeCompositeWeight_eq_seg cat iobj icutout wt seg segid hseg]
  unfold makeCompositeWeightSeg
  rw [if_neg (by omega : ¬ icutout = 0), if_pos hdet]

/-- Witness for C3 at a concrete catalog whose coadd Jacobian is all
zero. -/
theorem singular_coadd_jacobian_gives_zero_weight_witness :
    makeCompositeWeight exCatSingular 0 1 exWtOne exSegOne =
      some ⟨1, 1, fun _ _ => 0⟩ :=
  singular_coadd_jacobian_gives_zero_weight exCatSingular 0 1 exWtOne
    exSegOne 5 (by decide) (by decide) (by decide)

/-- C7: whenever the composite-weight operation returns a cutout, that
cutout has the shape of the input weight cutout and each of its pixels
either equals the corresponding input weight pixel or is exactly zero. -/
theorem composite_weight_pixels_unchanged_or_zero (cat : Catalog)
    (iobj icutout : ℕ) (wt seg : Mat ℚ) (M : Mat ℚ)
    (h : makeCompositeWeight cat iobj icutout wt seg = some M) :
    M.rows = wt.rows ∧ M.cols = wt.cols ∧
      ∀ r, r < wt.rows → ∀ c, c < wt.cols →
        M.data r c = wt.data r c ∨ M.data r c = 0 := by
  cases hseg : npGet2 seg (astypeI8 (cat.cutout_row iobj icutout))
      (astypeI8 (cat.cutout_col iobj icutout)) with
  | none =>
    simp only [makeCompositeWeight, hseg] at h
    exact absurd h (by simp)
  | some segid =>
    rw [makeCompositeWeight_eq_seg cat iobj icutout wt seg segid hseg] at h
    unfold makeCompositeWeightSeg at h
    by_cases h0 : icutout = 0
    · rw [if_pos h0] at h
      by_cases hfits : coaddMaskFits wt seg segid = true
      · rw [if_pos hfits] at h
        cases h
        refine ⟨rfl, rfl, fun r _ c _ => ?_⟩
        by_cases hb : r < seg.rows ∧ c < seg.cols ∧ seg.data r c ≠ segid
        · exact Or.inr (if_pos hb)
        · exact Or.inl (if_neg hb)
      · rw [if_neg hfits] at h
        exact absurd h (by simp)
    · rw [if_neg h0] at h
      by_cases hdet : jacDet (get_jacob_as_matrix cat iobj 0) = 0
      · rw [if_pos hdet] at h
        cases h
        exact ⟨rfl, rfl, fun r _ c _ => Or.inr rfl⟩
      · rw [if_neg hdet] at h
        by_cases hok : epochAllOk cat iobj icutout wt seg segid = true
        · rw [if_pos hok] at h
          cases h
          refine ⟨rfl, rfl, fun r _ c _ => ?_⟩
          exact epochPixelAt_getD_cases seg segid (wt.data r c) _ _
        · rw [if_neg hok] at h
          exact absurd h (by simp)

/-- Witness for C7 on a concrete coadd-frame call. -/
theorem composite_weight_pixels_unchanged_or_zero_witness :
    ∃ M, makeCompositeWeight exCatIdx 0 0 exWtCoadd exSegCoadd = some M ∧
      (M.rows = exWtCoadd.rows ∧ M.cols = exWtCoadd.cols ∧
        ∀ r, r < exWtCoadd.rows → ∀ c, c < exWtCoadd.cols →
          M.data r c = exWtCoadd.data r c ∨ M.data r c = 0) :=
  ⟨_, rfl, composite_weight_pixels_unchanged_or_zero exCatIdx 0 0 exWtCoadd
    exSegCoadd _ rfl⟩

/-- C5: in the reference-frame case (`cutout_index == 0`, shapes of the
weight and segmentation cutouts equal), the output is the input weight
cutout with every pixel whose segmentation value differs from `segid`
set to exactly zero, every pixel whose segmentation value equals `segid`
unchanged, and the output shape equals the input shape. -/
theorem coadd_branch_masks_by_segid (cat : Catalog) (iobj : ℕ)
    (wt seg : Mat ℚ) (segid : ℚ)
    (hseg : npGet2 seg (astypeI8 (cat.cutout_row iobj 0))
      (astypeI8 (cat.cutout_col iobj 0)) = some segid)
    (hr : seg.rows = wt.rows) (hc : seg.cols = wt.cols) :
    ∃ M, makeCompositeWeight cat iobj 0 wt seg = some M ∧
      M.rows = wt.rows ∧ M.cols = wt.cols ∧
      ∀ r, r < wt.rows → ∀ c, c < wt.cols →
        (seg.data r c = segid → M.data r c = wt.data r c) ∧
        (seg.data r c ≠ segid → M.data r c = 0) := by
  rw [makeCompositeWeight_eq_seg cat iobj 0 wt seg segid hseg]
  unfold makeCompositeWeightSeg
  rw [if_pos rfl, if_pos (coaddMaskFits_of_shape wt seg segid hr hc)]
  refine ⟨_, rfl, rfl, rfl, fun r hrw c hcw => ⟨fun he => ?_, fun hne => ?_⟩⟩
  · exact if_neg (fun h3 => h3.2.2 he)
  · exact if_pos ⟨by omega, by omega, hne⟩

/-- Witness for C5 on a concrete reference-frame call with a
non-constant segmentation. -/
theorem coadd_branch_masks_by_segid_witness :
    ∃ M, makeCompositeWeight exCatIdx 0 0 exWtCoadd exSegCoadd = some M ∧
      M.rows = exWtCoadd.rows ∧ M.cols = exWtCoadd.cols ∧
      ∀ r, r < exWtCoadd.rows → ∀ c, c < exWtCoadd.cols →
        (exSegCoadd.data r c = 5 → M.data r c = exWtCoadd.data r c) ∧
        (exSegCoadd.data r c ≠ 5 → M.data r c = 0) :=
  coadd_branch_masks_by_segid exCatIdx 0 exWtCoadd exSegCoadd 5
    (by decide) rfl rfl

/-- C2 counterexample: at a concrete epoch-frame input whose mapped row
coordinate is exactly 1/2, the code (which truncates with
`astype('i8')`) keeps the pixel, while the round-to-nearest variant the
claim describes zeroes it; so the coordinates are NOT rounded to
nearest. -/
theorem epoch_rounding_counterexample :
    (makeCompositeWeight exCatTrunc 0 1 exWtTrunc exSegTrunc).map
      (fun M => M.data 1 0) = some 1 ∧
    (makeCompositeWeightRound exCatTrunc 0 1 exWtTrunc exSegTrunc).map
      (fun M => M.data 1 0) = some 0 ∧
    (epochMap exCatTrunc 0 1 1 0).1 = 1/2 ∧
    astypeI8 (1/2 : ℚ) = 0 ∧ round ((1:ℚ)/2) = 1 := by
  refine ⟨by decide, by decide, by decide, by decide, ?_⟩
  rw [round_eq]
  norm_num

/-- C2 (amended): in the epoch-frame case the mapped reference-frame
coordinates are converted to integer pixel indices by truncation toward
zero (`astype('i8')`), not by rounding to nearest, before the bounds
check and the segmentation lookup, for every pixel of the weight
cutout. -/
theorem epoch_uses_truncation_toward_zero (cat : Catalog) (iobj icutout : ℕ)
    (wt seg : Mat ℚ) (segid : ℚ)
    (hseg : npGet2 seg (astypeI8 (cat.cutout_row iobj icutout))
      (astypeI8 (cat.cutout_col iobj icutout)) = some segid)
    (hic : icutout ≠ 0)
    (hdet : jacDet (get_jacob_as_matrix cat iobj 0) ≠ 0)
    (hok : epochAllOk cat iobj icutout wt seg segid = true) :
    ∃ M, makeCompositeWeight cat iobj icutout wt seg = some M ∧
      ∀ r, r < wt.rows → ∀ c, c < wt.cols →
        M.data r c = (epochPixelAt seg segid (wt.data r c)
          (astypeI8 (epochMap cat iobj icutout r c).1)
          (astypeI8 (epochMap cat iobj icutout r c).2)).getD 0 := by
  rw [makeCompositeWeight_eq_seg cat iobj icutout wt seg segid hseg]
  unfold makeCompositeWeightSeg
  rw [if_neg hic, if_neg hdet, if_pos hok]
  exact ⟨_, rfl, fun r _ c _ => rfl⟩

/-- Witness for the amended C2 at a concrete epoch-frame input. -/
theorem epoch_uses_truncation_toward_zero_witness :
    ∃ M, makeCompositeWeight exCatTrunc 0 1 exWtTrunc exSegTrunc = some M ∧
      ∀ r, r < exWtTrunc.rows → ∀ c, c < exWtTrunc.cols →
        M.data r c = (epochPixelAt exSegTrunc 5 (exWtTrunc.data r c)
          (astypeI8 (epochMap exCatTrunc 0 1 r c).1)
          (astypeI8 (epochMap exCatTrunc 0 1 r c).2)).getD 0 :=
  epoch_uses_truncation_toward_zero exCatTrunc 0 1 exWtTrunc exSegTrunc 5
    (by decide) (by decide) (by decide) (by decide)

/-- C6 counterexample: with the anchor at `(3/2, 0)`, the code takes
`segid` from row 1 (float indexing truncates), not row 2 (rounding), and
the resulting masks differ at pixel (0,0). -/
theorem anchor_rounding_counterexample :
    (makeCompositeWeight exCatAnchor 0 0 exWtAnchor exSegAnchor).map
      (fun M => M.data 0 0) = some 1 ∧
    (makeCompositeWeightRound exCatAnchor 0 0 exWtAnchor exSegAnchor).map
      (fun M => M.data 0 0) = some 0 ∧
    astypeI8 ((3:ℚ)/2) = 1 ∧ round ((3:ℚ)/2) = 2 := by
  refine ⟨by decide, by decide, by decide, ?_⟩
  rw [round_eq]
  norm_num

/-- C6 (amended): `segid` is obtained by indexing the reference
segmentation cutout at the anchor coordinates truncated toward zero
(numpy float indexing), the anchor being read from the current cutout's
own `cutout_row`/`cutout_col` entry; the rest of the operation uses
exactly that `segid`. -/
theorem segid_from_truncated_anchor (cat : Catalog) (iobj icutout : ℕ)
    (wt seg : Mat ℚ) :
    makeCompositeWeight cat iobj icutout wt seg =
      (npGet2 seg (astypeI8 (cat.cutout_row iobj icutout))
        (astypeI8 (cat.cutout_col iobj icutout))).bind
        (makeCompositeWeightSeg cat iobj icutout wt seg) := by
  unfold makeCompositeWeight
  cases npGet2 seg (astypeI8 (cat.cutout_row iobj icutout))
      (astypeI8 (cat.cutout_col iobj icutout)) <;> rfl

/-- C1: concrete evaluation exhibiting the bounds-check defect.  At
pixel (1,0) the mapped-and-converted reference coordinates are (2, 0):
the row coordinate 2 is outside [0, 2) while the column is inside, so
the claim (and the spec) requires weight 0 — but the code's literal
predicate `(crow < 0) | (crow >= h) & (ccol < 0) | (ccol >= w)` is false
there, the clipped segmentation lookup matches `segid`, and the pixel
keeps its nonzero input weight 7. -/
theorem epoch_bounds_bug_keeps_out_of_range_pixel :
    astypeI8 (epochMap exCatBug 0 1 1 0).1 = 2 ∧
    astypeI8 (epochMap exCatBug 0 1 1 0).2 = 0 ∧
    exSegBug.rows = 2 ∧ exSegBug.cols = 2 ∧
    (makeCompositeWeight exCatBug 0 1 exWtBug exSegBug).map
      (fun M => M.data 1 0) = some 7 ∧
    (7 : ℚ) ≠ 0 := by decide

/-- Reduction of `_check_indices` once the object index has resolved. -/
theorem checkIndices_eq_resolved (cat : Catalog) (iobj : ℤ) (ic : Option ℤ)
    (r : ℕ) (hlt : iobj < (cat.size : ℤ))
    (hnp : npIndex cat.size iobj = some r) :
    checkIndices cat iobj ic =
      (if cat.ncutout r = 0 then .error .emptyObjectError
       else match ic with
         | none => .ok ()
         | some k =>
           if (cat.ncutout r : ℤ) ≤ k then .error .indexError else .ok ()) := by
  unfold checkIndices
  rw [if_neg (not_le.mpr hlt), hnp]

/-- C4 counterexample: `object_index = -1` is outside `[0, num_objects)`
but validation succeeds (numpy wraps it to the last object), instead of
failing with IndexError as the claim states. -/
theorem negative_object_index_not_rejected :
    checkIndices exCatIdx (-1) none = Except.ok () := rfl

/-- C4 (amended): validation fails with IndexError for every
`object_index ≥ num_objects` and for every `object_index <
-num_objects` (the latter from the underlying numpy lookup); indices in
`[-num_objects, 0)` are NOT rejected — they wrap to `index +
num_objects`; on the resolved object, EmptyObjectError when `ncutout ==
0`; a supplied `cutout_index ≥ ncutout` fails with IndexError while any
`cutout_index < ncutout` — including negative ones — passes. -/
theorem checkIndices_characterization (cat : Catalog) (iobj : ℤ)
    (ic : Option ℤ) :
    ((cat.size : ℤ) ≤ iobj → checkIndices cat iobj ic = .error .indexError) ∧
    (iobj < -(cat.size : ℤ) → checkIndices cat iobj ic = .error .indexError) ∧
    (-(cat.size : ℤ) ≤ iobj → iobj < 0 →
      npIndex cat.size iobj = some (iobj + cat.size).toNat) ∧
    (∀ r : ℕ, iobj < (cat.size : ℤ) → npIndex cat.size iobj = some r →
      ((cat.ncutout r = 0 →
          checkIndices cat iobj ic = .error .emptyObjectError) ∧
       (cat.ncutout r ≠ 0 →
         ((ic = none → checkIndices cat iobj ic = .ok ()) ∧
          (∀ k : ℤ, ic = some k →
            (((cat.ncutout r : ℤ) ≤ k →
                checkIndices cat iobj ic = .error .indexError) ∧
             (k < (cat.ncutout r : ℤ) →
                checkIndices cat iobj ic = .ok ()))))))) := by
  refine ⟨fun h => ?_, fun h => ?_, fun h1 h2 => ?_, fun r hlt hnp => ⟨fun h0 => ?_, fun hne => ⟨fun hicn => ?_, fun k hk => ⟨fun hkge => ?_, fun hklt => ?_⟩⟩⟩⟩
  · unfold checkIndices
    rw [if_pos h]
  · have hn : npIndex cat.size iobj = none := by
      unfold npIndex
      rw [if_neg (by omega), if_neg (by omega)]
    unfold checkIndices
    rw [if_neg (by omega), hn]
  · unfold npIndex
    rw [if_neg (by omega), if_pos ⟨h1, h2⟩]
  · rw [checkIndices_eq_resolved cat iobj ic r hlt hnp, if_pos h0]
  · subst hicn
    rw [checkIndices_eq_resolved cat iobj none r hlt hnp, if_neg hne]
  · subst hk
    rw [checkIndices_eq_resolved cat iobj (some k) r hlt hnp, if_neg hne]
    exact if_pos hkge
  · subst hk
    rw [checkIndices_eq_resolved cat iobj (some k) r hlt hnp, if_neg hne]
    exact if_neg (not_le.mpr hklt)

/-- Witness for the amended C4, exercising every branch on concrete
catalogs: object index 1 and -2 rejected, empty object rejected, cutout
index 1 rejected, cutout index -1 and 0 accepted. -/
theorem checkIndices_characterization_witness :
    checkIndices exCatIdx 1 none = .error .indexError ∧
    checkIndices exCatIdx (-2) none = .error .indexError ∧
    checkIndices exCatEmpty 0 none = .error .emptyObjectError ∧
    checkIndices exCatIdx 0 (some 1) = .error .indexError ∧
    checkIndices exCatIdx 0 (some (-1)) = .ok () ∧
    checkIndices exCatIdx 0 none = .ok () := by
  refine ⟨?_, ?_, ?_, ?_, ?_, ?_⟩
  · exact (checkIndices_characterization exCatIdx 1 none).1 (by decide)
  · exact (checkIndices_characterization exCatIdx (-2) none).2.1 (by decide)
  · exact (((checkIndices_characterization exCatEmpty 0 none).2.2.2 0
      (by decide) (by decide)).1 (by decide))
  · exact ((((checkIndices_characterization exCatIdx 0 (some 1)).2.2.2 0
      (by decide) (by decide)).2 (by decide)).2 1 rfl).1 (by decide)
  · exact ((((checkIndices_characterization exCatIdx 0 (some (-1))).2.2.2 0
      (by decide) (by decide)).2 (by decide)).2 (-1) rfl).2 (by decide)
  · exact (((checkIndices_characterization exCatIdx 0 none).2.2.2 0
      (by decide) (by decide)).2 (by decide)).1 rfl

/-- C8: under the catalog contiguity invariant, cutout `i` of an object
is pixel-identical to row band `[i·box_size, (i+1)·box_size)` of the
object's mosaic, and element `i` of the split list is that same band
(hence cutout 0 is the first `box_size` rows of the mosaic). -/
theorem cutouts_are_mosaic_bands (cat : Catalog) (flat : ℕ → ℚ)
    (iobj i r c : ℕ)
    (hio : iobj < cat.size) (hnc : cat.ncutout iobj ≠ 0)
    (hi : i < cat.ncutout iobj)
    (hcontig : ∀ k, k < cat.ncutout iobj →
      cat.start_row iobj k =
        cat.start_row iobj 0 + k * (cat.box_size iobj * cat.box_size iobj))
    (hr : r < cat.box_size iobj) (hc : c < cat.box_size iobj) :
    ∃ cutM mosM, get_cutout cat flat iobj i = .ok cutM ∧
      get_mosaic cat flat iobj = .ok mosM ∧
      cutM.data r c = mosM.data (i * cat.box_size iobj + r) c ∧
      ((splitMosaicVals mosM (cat.box_size iobj) (cat.ncutout iobj)).getD
          i dfltMat).data r c
        = mosM.data (i * cat.box_size iobj + r) c := by
  refine ⟨⟨cat.box_size iobj, cat.box_size iobj,
      fun a b => flat (cat.start_row iobj i + a * cat.box_size iobj + b)⟩,
    ⟨cat.ncutout iobj * cat.box_size iobj, cat.box_size iobj,
      fun a b => flat (cat.start_row iobj 0 + a * cat.box_size iobj + b)⟩,
    ?_, ?_, ?_, ?_⟩
  · unfold get_cutout
    rw [checkIndices_ok_cut cat iobj i hio hi]
  · unfold get_mosaic
    rw [checkIndices_ok_obj cat iobj hio hnc]
  · show flat (cat.start_row iobj i + r * cat.box_size iobj + c) =
      flat (cat.start_row iobj 0 +
        (i * cat.box_size iobj + r) * cat.box_size iobj + c)
    rw [hcontig i hi]
    ring_nf
  · unfold splitMosaicVals
    rw [getD_map_range _ _ _ _ hi]

/-- Witness for C8 on a concrete two-cutout catalog and a flat extension
with distinct values. -/
theorem cutouts_are_mosaic_bands_witness :
    ∃ cutM mosM, get_cutout exCatAddr exFlat 0 1 = .ok cutM ∧
      get_mosaic exCatAddr exFlat 0 = .ok mosM ∧
      cutM.data 1 0 = mosM.data 3 0 ∧
      ((splitMosaicVals mosM 2 2).getD 1 dfltMat).data 1 0 = mosM.data 3 0 :=
  cutouts_are_mosaic_bands exCatAddr exFlat 0 1 1 0 (by decide) (by decide)
    (by decide)
    (fun k _ => by show k * 4 = 0 * 4 + k * (2 * 2); omega)
    (by decide) (by decide)

/-- Indexing the split view list. -/
theorem splitMosaicViews_getD (m : ViewH) (b n i : ℕ) (hi : i < n) :
    (splitMosaicViews m b n).getD i dfltView =
      ⟨m.buf, m.rowOff + i * b, b, b⟩ := by
  unfold splitMosaicViews
  exact getD_map_range _ n i dfltView hi

/-- C9: element `i` of the split list is a view into the SAME buffer as
the mosaic; without writes it reads the mosaic's row band
`[i·b, (i+1)·b)`; a write through the list element is visible at the
corresponding mosaic pixel, and a write through the mosaic is visible
through the list element. -/
theorem split_mosaic_views_alias (σ : Heap) (m : ViewH) (b n i r c : ℕ)
    (x : ℚ) (hi : i < n) :
    ((splitMosaicViews m b n).getD i dfltView).buf = m.buf ∧
    readV σ ((splitMosaicViews m b n).getD i dfltView) r c =
      readV σ m (i * b + r) c ∧
    readV (writeV σ ((splitMosaicViews m b n).getD i dfltView) r c x) m
      (i * b + r) c = x ∧
    readV (writeV σ m (i * b + r) c x)
      ((splitMosaicViews m b n).getD i dfltView) r c = x := by
  rw [splitMosaicViews_getD m b n i hi]
  refine ⟨rfl, ?_, ?_, ?_⟩
  · show σ m.buf (m.rowOff + i * b + r) c = σ m.buf (m.rowOff + (i * b + r)) c
    rw [Nat.add_assoc]
  · show (if m.buf = m.buf ∧ m.rowOff + (i * b + r) = m.rowOff + i * b + r ∧
        c = c then x else σ m.buf (m.rowOff + (i * b + r)) c) = x
    exact if_pos ⟨rfl, by omega, rfl⟩
  · show (if m.buf = m.buf ∧ m.rowOff + i * b + r = m.rowOff + (i * b + r) ∧
        c = c then x else σ m.buf (m.rowOff + i * b + r) c) = x
    exact if_pos ⟨rfl, by omega, rfl⟩

/-- Witness for C9 on a concrete heap and 6×3 mosaic view split into two
3-row bands. -/
theorem split_mosaic_views_alias_witness :
    ((splitMosaicViews exMosaicView 3 2).getD 1 dfltView).buf =
      exMosaicView.buf ∧
    readV exHeap ((splitMosaicViews exMosaicView 3 2).getD 1 dfltView) 2 1 =
      readV exHeap exMosaicView 5 1 ∧
    readV (writeV exHeap ((splitMosaicViews exMosaicView 3 2).getD 1 dfltView)
      2 1 42) exMosaicView 5 1 = 42 ∧
    readV (writeV exHeap exMosaicView 5 1 42)
      ((splitMosaicViews exMosaicView 3 2).getD 1 dfltView) 2 1 = 42 :=
  split_mosaic_views_alias exHeap exMosaicView 3 2 1 2 1 42 (by decide)

/-- C10: when the single-cutout composite-weight operation succeeds, it
writes only into a freshly allocated buffer: every buffer other than the
fresh output buffer is untouched, and in particular the weight view and
the segmentation view read back bit-for-bit unchanged; the output view's
buffer differs from both input buffers. -/
theorem composite_weight_preserves_inputs (σ : Heap) (cat : Catalog)
    (iobj icutout : ℕ) (wtV segV : ViewH) (M : Mat ℚ)
    (h : makeCompositeWeight cat iobj icutout (matOfView σ wtV)
      (matOfView σ segV) = some M) :
    ∃ σ' outV, makeCompositeWeightH σ cat iobj icutout wtV segV =
        some (σ', outV) ∧
      outV.buf ≠ wtV.buf ∧ outV.buf ≠ segV.buf ∧
      (∀ b, b ≠ max wtV.buf segV.buf + 1 → ∀ i j, σ' b i j = σ b i j) ∧
      (∀ r c, readV σ' wtV r c = readV σ wtV r c) ∧
      (∀ r c, readV σ' segV r c = readV σ segV r c) := by
  have hw := Nat.le_max_left wtV.buf segV.buf
  have hs := Nat.le_max_right wtV.buf segV.buf
  refine ⟨fun b i j => if b = max wtV.buf segV.buf + 1 then M.data i j
      else σ b i j,
    ⟨max wtV.buf segV.buf + 1, 0, M.rows, M.cols⟩, ?_, ?_, ?_, ?_, ?_, ?_⟩
  · unfold makeCompositeWeightH
    rw [h]
  · show max wtV.buf segV.buf + 1 ≠ wtV.buf
    omega
  · show max wtV.buf segV.buf + 1 ≠ segV.buf
    omega
  · intro b hb i j
    exact if_neg hb
  · intro r c
    show (if wtV.buf = max wtV.buf segV.buf + 1 then M.data (wtV.rowOff + r) c
        else σ wtV.buf (wtV.rowOff + r) c) = σ wtV.buf (wtV.rowOff + r) c
    exact if_neg (by omega)
  · intro r c
    show (if segV.buf = max wtV.buf segV.buf + 1 then M.data (segV.rowOff + r) c
        else σ segV.buf (segV.rowOff + r) c) = σ segV.buf (segV.rowOff + r) c
    exact if_neg (by omega)

/-- Witness for C10 on a concrete heap with the weight in buffer 0 and
the segmentation in buffer 1. -/
theorem composite_weight_preserves_inputs_witness :
    ∃ σ' outV, makeCompositeWeightH exHeap exCatIdx 0 0 exWtView exSegView =
        some (σ', outV) ∧
      outV.buf ≠ exWtView.buf ∧ outV.buf ≠ exSegView.buf ∧
      (∀ b, b ≠ max exWtView.buf exSegView.buf + 1 → ∀ i j,
        σ' b i j = exHeap b i j) ∧
      (∀ r c, readV σ' exWtView r c = readV exHeap exWtView r c) ∧
      (∀ r c, readV σ' exSegView r c = readV exHeap exSegView r c) :=
  composite_weight_preserves_inputs exHeap exCatIdx 0 0 exWtView exSegView
    _ rfl

end Meds
